import Mathlib

/-!
Verification of the budget-allocation algorithm and the experiment pipeline of
scripts/planners_evaluation.py, and of the constructor of
rl_agents/agents/dqn/abstract.py, as shallow Lean embeddings.
-/

namespace PlannersEvaluation

/-- The fixed module-level discount of scripts/planners_evaluation.py: gamma = 0.9. -/
def gamma : ℚ := 9 / 10

/-- The fixed module-level branching factor of scripts/planners_evaluation.py: K = 5. -/
def K : ℕ := 5

/-- Bounded linear search for the least L at or above the current L with
episodes * 81 ^ L ≤ 100 ^ L; when fuel runs out, the current L is returned.
Helper for olop_horizon. -/
def horizonSearch (episodes : ℕ) : ℕ → ℕ → ℕ
  | L, 0 => L
  | L, fuel + 1 => if episodes * 81 ^ L ≤ 100 ^ L then L else horizonSearch episodes (L + 1) fuel

/-- olop_horizon(episodes, gamma) from scripts/planners_evaluation.py, line 205,
at the module constant gamma = 9/10:
int(np.ceil(np.log(episodes) / (2 * np.log(1 / gamma)))).
For episodes ≥ 1 the log ratio is nonnegative, and its ceiling is the least
natural L with (1/gamma) ^ (2 * L) ≥ episodes, that is with
episodes * 81 ^ L ≤ 100 ^ L (since (10/9) ^ (2 L) = 100 ^ L / 81 ^ L).
The search fuel 4 * episodes always suffices (see exists_horizon_bound). -/
def olop_horizon (episodes : ℕ) : ℕ := horizonSearch episodes 0 (4 * episodes)

/-- The scan loop of allocate, scripts/planners_evaluation.py lines 216-220:
for episodes in range(1, budget): if episodes * olop_horizon(episodes, gamma) > budget:
episodes -= 1; break. The fuel counts the remaining loop iterations; when the loop
completes without breaking, the loop variable holds its final value budget - 1,
which equals M - 1 at the exhausted call. -/
def allocScan (budget : ℕ) : ℕ → ℕ → ℕ
  | M, 0 => M - 1
  | M, fuel + 1 =>
      if budget < M * olop_horizon M then M - 1 else allocScan budget (M + 1) fuel

/-- allocate(budget) from scripts/planners_evaluation.py lines 209-223, scalar branch
(np.size(budget) ≤ 1). When budget ≤ 1 the loop range(1, budget) is empty, the
variable episodes is never assigned, and the function raises UnboundLocalError;
this failure is modelled as none. Otherwise the scan runs over
episodes = 1, ..., budget - 1 and the final horizon is recomputed from the
resulting episodes value. -/
def allocate (budget : ℕ) : Option (ℕ × ℕ) :=
  if budget ≤ 1 then none
  else
    let episodes := allocScan budget 1 (budget - 1)
    some (episodes, olop_horizon episodes)

lemma exists_horizon_bound (e : ℕ) : e * 81 ^ (4 * e) ≤ 100 ^ (4 * e) := by
  have h1 : e ≤ 2 ^ e := (Nat.lt_two_pow e).le
  have h2 : (2 * 81 ^ 4) ^ e ≤ (100 ^ 4) ^ e :=
    Nat.pow_le_pow_left (by norm_num) e
  calc e * 81 ^ (4 * e) ≤ 2 ^ e * 81 ^ (4 * e) :=
        Nat.mul_le_mul_right _ h1
    _ = 2 ^ e * (81 ^ 4) ^ e := by rw [pow_mul]
    _ = (2 * 81 ^ 4) ^ e := by rw [mul_pow]
    _ ≤ (100 ^ 4) ^ e := h2
    _ = 100 ^ (4 * e) := by rw [pow_mul]

lemma horizonSearch_spec (e : ℕ) :
    ∀ fuel L, (∀ m, m < L → ¬(e * 81 ^ m ≤ 100 ^ m)) →
      e * 81 ^ (L + fuel) ≤ 100 ^ (L + fuel) →
      (e * 81 ^ horizonSearch e L fuel ≤ 100 ^ horizonSearch e L fuel ∧
        ∀ m, m < horizonSearch e L fuel → ¬(e * 81 ^ m ≤ 100 ^ m)) := by
  intro fuel
  induction fuel with
  | zero =>
      intro L hmin hsat
      simpa [horizonSearch] using And.intro hsat hmin
  | succ n ih =>
      intro L hmin hsat
      by_cases h : e * 81 ^ L ≤ 100 ^ L
      · simpa [horizonSearch, h] using And.intro h hmin
      · have hmin' : ∀ m, m < L + 1 → ¬(e * 81 ^ m ≤ 100 ^ m) := by
          intro m hm
          rcases Nat.lt_succ_iff_lt_or_eq.mp hm with hlt | heq
          · exact hmin m hlt
          · simpa [heq] using h
        have hsat' : e * 81 ^ (L + 1 + n) ≤ 100 ^ (L + 1 + n) := by
          have : L + 1 + n = L + (n + 1) := by omega
          simpa [this] using hsat
        simpa [horizonSearch, h] using ih (L + 1) hmin' hsat'

/-- olop_horizon e satisfies its defining inequality and is least with it. -/
lemma olop_horizon_spec (e : ℕ) :
    e * 81 ^ olop_horizon e ≤ 100 ^ olop_horizon e ∧
      ∀ m, m < olop_horizon e → ¬(e * 81 ^ m ≤ 100 ^ m) := by
  have h := horizonSearch_spec e (4 * e) 0 (by omega)
    (by simpa using exists_horizon_bound e)
  simpa [olop_horizon] using h

lemma olop_horizon_mono {e₁ e₂ : ℕ} (h : e₁ ≤ e₂) : olop_horizon e₁ ≤ olop_horizon e₂ := by
  by_contra hlt
  push_neg at hlt
  have h2 := (olop_horizon_spec e₂).1
  have h1 := (olop_horizon_spec e₁).2 (olop_horizon e₂) hlt
  exact h1 (le_trans (Nat.mul_le_mul_right _ h) h2)

lemma olop_horizon_one : olop_horizon 1 = 0 := rfl

lemma olop_horizon_ge_four {e : ℕ} (h : 2 ≤ e) : 4 ≤ olop_horizon e := by
  by_contra hlt
  push_neg at hlt
  have hsat := (olop_horizon_spec e).1
  have hbig : 100 ^ olop_horizon e < 2 * 81 ^ olop_horizon e := by
    interval_cases (olop_horizon e) <;> norm_num
  have : 2 * 81 ^ olop_horizon e ≤ e * 81 ^ olop_horizon e :=
    Nat.mul_le_mul_right _ h
  omega

lemma g_mono {M₁ M₂ : ℕ} (h : M₁ ≤ M₂) :
    M₁ * olop_horizon M₁ ≤ M₂ * olop_horizon M₂ :=
  Nat.mul_le_mul h (olop_horizon_mono h)

lemma allocScan_spec (budget : ℕ) (hb : 2 ≤ budget) :
    ∀ fuel M, 1 ≤ M → M + fuel = budget →
      (∀ k, 1 ≤ k → k < M → k * olop_horizon k ≤ budget) →
      (1 ≤ allocScan budget M fuel ∧
        allocScan budget M fuel ≤ budget - 1 ∧
        allocScan budget M fuel * olop_horizon (allocScan budget M fuel) ≤ budget ∧
        (allocScan budget M fuel = budget - 1 ∨
          budget < (allocScan budget M fuel + 1) * olop_horizon (allocScan budget M fuel + 1))) := by
  intro fuel
  induction fuel with
  | zero =>
      intro M hM hMf hprev
      have hMb : M = budget := by omega
      have hres : allocScan budget M 0 = M - 1 := rfl
      refine ⟨by omega, by omega, ?_, Or.inl (by omega)⟩
      rw [hres]
      exact hprev (M - 1) (by omega) (by omega)
  | succ n ih =>
      intro M hM hMf hprev
      by_cases h : budget < M * olop_horizon M
      · have hM2 : 2 ≤ M := by
          rcases Nat.lt_or_ge M 2 with h1 | h1
          · exfalso
            have hM1 : M = 1 := by omega
            rw [hM1, olop_horizon_one] at h
            omega
          · exact h1
        have hres : allocScan budget M (n + 1) = M - 1 := by
          simp [allocScan, h]
        rw [hres]
        refine ⟨by omega, by omega, hprev (M - 1) (by omega) (by omega), Or.inr ?_⟩
        have : M - 1 + 1 = M := by omega
        rw [this]
        exact h
      · have hres : allocScan budget M (n + 1) = allocScan budget (M + 1) n := by
          simp [allocScan, h]
        rw [hres]
        refine ih (M + 1) (by omega) (by omega) ?_
        intro k hk1 hk2
        rcases Nat.lt_succ_iff_lt_or_eq.mp hk2 with hlt | heq
        · exact hprev k hk1 hlt
        · rw [heq]
          omega

/-- Full characterisation of a successful call to allocate. -/
lemma allocate_spec {budget M L : ℕ} (h : allocate budget = some (M, L)) :
    2 ≤ budget ∧ L = olop_horizon M ∧ 1 ≤ M ∧ M ≤ budget - 1 ∧
      M * olop_horizon M ≤ budget ∧
      (M = budget - 1 ∨ budget < (M + 1) * olop_horizon (M + 1)) := by
  by_cases hb : budget ≤ 1
  · simp [allocate, hb] at h
  · have hb2 : 2 ≤ budget := by omega
    have hM : M = allocScan budget 1 (budget - 1) ∧ L = olop_horizon (allocScan budget 1 (budget - 1)) := by
      simp [allocate, hb] at h
      exact ⟨h.1.symm, h.2.symm⟩
    have hspec := allocScan_spec budget hb2 (budget - 1) 1 (by omega) (by omega)
      (by intro k hk1 hk2; omega)
    rcases hM with ⟨hM1, hM2⟩
    rw [← hM1] at hspec
    exact ⟨hb2, by rw [hM2, hM1], hspec.1, hspec.2.1, hspec.2.2.1, hspec.2.2.2⟩

/-- Tightness in the corrected form: the next episode count would exceed the budget. -/
lemma allocate_tight {budget M L : ℕ} (h : allocate budget = some (M, L)) :
    budget < (M + 1) * olop_horizon (M + 1) := by
  rcases allocate_spec h with ⟨hb2, _, hM1, _, _, hdisj⟩
  rcases hdisj with heq | hlt
  · have hMb : M + 1 = budget := by omega
    rw [hMb]
    have h4 : 4 ≤ olop_horizon budget := olop_horizon_ge_four (by omega)
    have : budget * 4 ≤ budget * olop_horizon budget := Nat.mul_le_mul_left _ h4
    omega
  · exact hlt

/-- C1 counterexample: at budget n = 4 the code returns (M, L) = (1, 0); feasibility
1 * 0 ≤ 4 holds, but the tightness stated by the claim,
M * olop_horizon (M + 1) > n, fails there: 1 * olop_horizon 2 = 4 is not > 4. -/
theorem C1_counterexample :
    allocate 4 = some (1, 0) ∧ ¬(4 < 1 * olop_horizon (1 + 1)) := by decide

/-- C1 (amended): for every budget on which allocate returns a pair (M, L),
feasibility M * L ≤ n holds, and tightness holds in the form
(M + 1) * olop_horizon (M + 1) > n: already M + 1 episodes with their derived
horizon would exceed the budget, so M is the largest feasible episode count. -/
theorem C1_amended (n M L : ℕ) (h : allocate n = some (M, L)) :
    M * L ≤ n ∧ n < (M + 1) * olop_horizon (M + 1) := by
  rcases allocate_spec h with ⟨_, hL, _, _, hfeas, _⟩
  exact ⟨by rw [hL]; exact hfeas, allocate_tight h⟩

theorem C1_witness : 2 * 4 ≤ 10 ∧ 10 < (2 + 1) * olop_horizon (2 + 1) :=
  C1_amended 10 2 4 (by decide)

/-- C2 counterexample: at budget n = 2 the code returns (M, L) = (1, 0), whose
horizon component is not a positive integer. -/
theorem C2_counterexample : allocate 2 = some (1, 0) ∧ ¬(1 ≤ (0 : ℕ)) := by decide

/-- C2 (amended): whenever allocate returns a pair (M, L), the episode count M is a
positive integer, and the horizon L is positive exactly when M ≥ 2; for M = 1 the
horizon is the degenerate base case L = olop_horizon 1 = 0. -/
theorem C2_amended (n M L : ℕ) (h : allocate n = some (M, L)) :
    1 ≤ M ∧ (1 ≤ L ↔ 2 ≤ M) := by
  rcases allocate_spec h with ⟨_, hL, hM1, _, _, _⟩
  refine ⟨hM1, ?_, ?_⟩
  · intro hLpos
    by_contra hM2
    push_neg at hM2
    have hM : M = 1 := by omega
    rw [hL, hM, olop_horizon_one] at hLpos
    omega
  · intro hM2
    have := olop_horizon_ge_four hM2
    omega

theorem C2_witness : 1 ≤ 2 ∧ (1 ≤ 4 ↔ 2 ≤ 2) :=
  C2_amended 8 2 4 (by decide)

/-- C4 (confirmed): the episode count returned by allocate is monotone in the budget:
whenever both budgets yield a pair, n₁ ≤ n₂ implies M₁ ≤ M₂. -/
theorem C4_monotone (n₁ n₂ M₁ L₁ M₂ L₂ : ℕ) (hn : n₁ ≤ n₂)
    (h₁ : allocate n₁ = some (M₁, L₁)) (h₂ : allocate n₂ = some (M₂, L₂)) :
    M₁ ≤ M₂ := by
  rcases allocate_spec h₁ with ⟨hb₁, _, _, hub₁, hfeas₁, _⟩
  rcases allocate_spec h₂ with ⟨hb₂, _, _, _, _, hdisj₂⟩
  by_contra hlt
  push_neg at hlt
  rcases hdisj₂ with heq | htight
  · omega
  · have hstep : M₂ + 1 ≤ M₁ := by omega
    have := g_mono hstep
    omega

theorem C4_witness : (1 : ℕ) ≤ 2 :=
  C4_monotone 4 8 1 0 2 4 (by decide) (by decide) (by decide)

/-- C9 (confirmed): for every budget b ≤ 1 the scalar branch of allocate executes
zero iterations of its scan loop, so the loop variable episodes is never bound and
the Python code raises UnboundLocalError instead of returning a pair; the failure
is modelled by allocate returning none. -/
theorem C9_small_budget_fails (b : ℕ) (h : b ≤ 1) : allocate b = none := by
  simp [allocate, h]

theorem C9_witness : allocate 1 = none ∧ allocate 0 = none :=
  ⟨C9_small_budget_fails 1 (by decide), C9_small_budget_fails 0 (by decide)⟩

/-- The vector branch of allocate, scripts/planners_evaluation.py lines 210-214:
when np.size(budget) > 1, the scalar procedure is applied element-wise in index
order and the results are collected into the parallel arrays episodes and horizon.
A scalar failure (see C9) propagates out of the loop, modelled by none. -/
def allocate_vec : List ℕ → Option (List ℕ × List ℕ)
  | [] => some ([], [])
  | b :: rest =>
      match allocate b, allocate_vec rest with
      | some p, some (es, hs) => some (p.1 :: es, p.2 :: hs)
      | _, _ => none

lemma allocate_vec_spec :
    ∀ (budgets es hs : List ℕ), allocate_vec budgets = some (es, hs) →
      es.length = budgets.length ∧ hs.length = budgets.length ∧
        ∀ i, i < budgets.length →
          allocate (budgets.getD i 0) = some (es.getD i 0, hs.getD i 0) := by
  intro budgets
  induction budgets with
  | nil =>
      intro es hs h
      simp [allocate_vec] at h
      rcases h with ⟨h1, h2⟩
      subst h1
      subst h2
      simp
  | cons b rest ih =>
      intro es hs h
      rcases hb : allocate b with _ | p
      · rw [allocate_vec, hb] at h
        simp at h
      · rcases hrest : allocate_vec rest with _ | q
        · rw [allocate_vec, hb, hrest] at h
          simp at h
        · rcases q with ⟨es0, hs0⟩
          rw [allocate_vec, hb, hrest] at h
          simp only [Option.some.injEq, Prod.mk.injEq] at h
          rcases h with ⟨hes, hhs⟩
          rcases ih es0 hs0 hrest with ⟨hl1, hl2, hall⟩
          subst hes
          subst hhs
          refine ⟨by simp [hl1], by simp [hl2], ?_⟩
          intro i hi
          cases i with
          | zero => simpa using hb
          | succ j =>
              simp only [List.getD_cons_succ]
              exact hall j (by simpa using hi)

/-- C8 (confirmed): on an array of more than one budget, each on which the scalar
allocation succeeds, allocate returns parallel arrays of episodes and horizons
whose i-th entries are exactly the scalar allocate of the i-th budget. -/
theorem C8_vector_elementwise (budgets es hs : List ℕ) (_hlen : 1 < budgets.length)
    (h : allocate_vec budgets = some (es, hs)) :
    es.length = budgets.length ∧ hs.length = budgets.length ∧
      ∀ i, i < budgets.length →
        allocate (budgets.getD i 0) = some (es.getD i 0, hs.getD i 0) :=
  allocate_vec_spec budgets es hs h

theorem C8_witness :
    ([1, 2] : List ℕ).length = ([4, 8] : List ℕ).length ∧
      ([0, 4] : List ℕ).length = ([4, 8] : List ℕ).length ∧
      ∀ i, i < ([4, 8] : List ℕ).length →
        allocate (([4, 8] : List ℕ).getD i 0) =
          some (([1, 2] : List ℕ).getD i 0, ([0, 4] : List ℕ).getD i 0) :=
  C8_vector_elementwise [4, 8] [1, 2] [0, 4] (by decide) (by decide)

/-- One result append of evaluate, scripts/planners_evaluation.py lines 149-151:
the store is opened in append mode, so the file position after opening equals the
current size, and df.to_csv writes the header line iff f.tell() == 0, that is iff
the store is absent or empty, followed by the single data row. The store is
modelled as its list of lines. -/
def append_record (file : List String) (header row : String) : List String :=
  if file = [] then [header, row] else file ++ [row]

/-- A sequence of sequential result appends to the same store path, each performed
by one evaluate call via append_record. -/
def append_results (file : List String) (header : String) (rows : List String) :
    List String :=
  rows.foldl (fun f r => append_record f header r) file

lemma append_results_of_ne_nil (header : String) :
    ∀ (rows file : List String), file ≠ [] →
      append_results file header rows = file ++ rows := by
  intro rows
  induction rows with
  | nil => intro file _; simp [append_results]
  | cons r rest ih =>
      intro file hfile
      have h1 : append_results file header (r :: rest) =
          append_results (file ++ [r]) header rest := by
        simp [append_results, append_record, hfile]
      rw [h1, ih (file ++ [r]) (by simp)]
      simp

/-- C5 (confirmed): starting from an absent or empty store, a sequence of N ≥ 1
sequential appends produces exactly one header line followed by the N data rows,
and a single append to a pre-existing non-empty store adds its row without
repeating the header. -/
theorem C5_header_once (header extra : String) (rows file : List String)
    (hrows : rows ≠ []) (hfile : file ≠ []) :
    append_results [] header rows = header :: rows ∧
      append_record file header extra = file ++ [extra] := by
  constructor
  · rcases rows with _ | ⟨r, rest⟩
    · exact absurd rfl hrows
    · have h1 : append_results [] header (r :: rest) =
          append_results [header, r] header rest := by
        simp [append_results, append_record]
      rw [h1, append_results_of_ne_nil header rest [header, r] (by simp)]
      simp
  · simp [append_record, hfile]

theorem C5_witness :
    append_results [] "agent,budget,seed,action_value,value,action"
        ["r1", "r2", "r3", "r4", "r5"] =
      "agent,budget,seed,action_value,value,action" :: ["r1", "r2", "r3", "r4", "r5"] ∧
      append_record ["h", "r1"] "agent,budget,seed,action_value,value,action" "r6" =
        ["h", "r1"] ++ ["r6"] :=
  C5_header_once "agent,budget,seed,action_value,value,action" "r6"
    ["r1", "r2", "r3", "r4", "r5"] ["h", "r1"] (by decide) (by decide)

/-- A row of the result store as loaded by plot_all. The agent column is text; the
numeric columns are some q once pd.to_numeric coerced them, and none when the cell
holds non-numeric leftover text, as in a stray repeated header row. -/
structure LoadedRow where
  agent : String
  budget : Option ℚ
  seed : Option ℚ
  action_value : Option ℚ
  value : Option ℚ
  action : Option ℚ
deriving DecidableEq

/-- The regret derivation of plot_all, scripts/planners_evaluation.py line 171:
df of regret = df of value minus df of action_value, defined per row when both
columns are numeric there. -/
def rowRegret (r : LoadedRow) : Option ℚ :=
  match r.value, r.action_value with
  | some v, some a => some (v - a)
  | _, _ => none

/-- The data cleaning and regret derivation of plot_all, scripts/planners_evaluation.py
lines 168-171: rows whose agent column equals the literal text agent (leftover
header rows) are dropped, numeric coercion is applied, and a regret column is
added; every surviving row is kept, with no check on the sign of its regret. -/
def plot_all_rows (rows : List LoadedRow) : List (LoadedRow × Option ℚ) :=
  (rows.filter fun r => r.agent != "agent").map fun r => (r, rowRegret r)

/-- C6 counterexample: a well-formed data row with action_value 2 and value 1 passes
through plot_all with regret -1 attached; the negative regret appears in the output
exactly like any other row, with no flag and no rejection. -/
theorem C6_counterexample :
    plot_all_rows [⟨"olop", some 10, some 0, some 2, some 1, some 3⟩] =
      [(⟨"olop", some 10, some 0, some 2, some 1, some 3⟩, some (-1))] ∧
      (-1 : ℚ) < 0 := by
  constructor
  · simp [plot_all_rows, rowRegret]
    norm_num
  · norm_num

/-- C6 (amended): plot_all drops exactly the leftover header-like rows (agent column
equal to the text agent) and derives regret = value - action_value for every
remaining row; rows with negative regret are retained unflagged in the output,
since the code performs no negativity check. -/
theorem C6_regret_rows (rows : List LoadedRow) (r : LoadedRow)
    (hmem : r ∈ rows) (hagent : r.agent ≠ "agent") :
    (r, rowRegret r) ∈ plot_all_rows rows ∧
      ∀ p ∈ plot_all_rows rows,
        p.1 ∈ rows ∧ p.1.agent ≠ "agent" ∧ p.2 = rowRegret p.1 := by
  constructor
  · refine List.mem_map.mpr ⟨r, ?_, rfl⟩
    refine List.mem_filter.mpr ⟨hmem, ?_⟩
    simpa using hagent
  · intro p hp
    rcases List.mem_map.mp hp with ⟨q, hq, hqe⟩
    rcases List.mem_filter.mp hq with ⟨hq1, hq2⟩
    refine ⟨by rw [← hqe]; exact hq1, ?_, by rw [← hqe]⟩
    rw [← hqe]
    simpa using hq2

theorem C6_witness :
    ((⟨"olop", some 10, some 0, some 2, some 1, some 3⟩ : LoadedRow),
        rowRegret ⟨"olop", some 10, some 0, some 2, some 1, some 3⟩) ∈
      plot_all_rows [⟨"agent", none, none, none, none, none⟩,
        ⟨"olop", some 10, some 0, some 2, some 1, some 3⟩] ∧
      ∀ p ∈ plot_all_rows [⟨"agent", none, none, none, none, none⟩,
          ⟨"olop", some 10, some 0, some 2, some 1, some 3⟩],
        p.1 ∈ [(⟨"agent", none, none, none, none, none⟩ : LoadedRow),
            ⟨"olop", some 10, some 0, some 2, some 1, some 3⟩] ∧
          p.1.agent ≠ "agent" ∧ p.2 = rowRegret p.1 :=
  C6_regret_rows _ _ (by simp) (by decide)

/-- The hyperparameter sub-record of the upper_bound entry of the OLOP-style
configs of agent_configs in scripts/planners_evaluation.py. -/
structure UpperBound where
  type : String
  c : ℚ
deriving DecidableEq

/-- One agent configuration record of scripts/planners_evaluation.py. The field
cls holds the class tag (the Python key named with the double underscores, with
its class-string wrapper dropped); absent dictionary keys are none. The fields
budget and iterations are the ones evaluate injects per trial. -/
structure AgentConf where
  cls : String
  gamma : Option ℚ := none
  max_depth : Option ℕ := none
  upper_bound : Option UpperBound := none
  lazy_tree_construction : Option Bool := none
  continuation_type : Option String := none
  iterations : Option ℕ := none
  budget : Option ℕ := none
deriving DecidableEq

/-- agent_configs() from scripts/planners_evaluation.py lines 37-99: the ordered
registry of the seven benchmarked agents, in insertion order. The iterations value
of the value_iteration baseline is int(3 / (1 - gamma)) = 30 at gamma = 9/10. -/
def agent_configs : List (String × AgentConf) :=
  [("random", { cls := "rl_agents.agents.simple.random.RandomUniformAgent" }),
   ("olop", { cls := "rl_agents.agents.tree_search.olop.OLOPAgent",
              gamma := some gamma, max_depth := some 10,
              upper_bound := some ⟨"hoeffding", 4⟩,
              lazy_tree_construction := some true,
              continuation_type := some "uniform" }),
   ("kl-olop", { cls := "rl_agents.agents.tree_search.olop.OLOPAgent",
                 gamma := some gamma, max_depth := some 10,
                 upper_bound := some ⟨"kullback-leibler", 2⟩,
                 lazy_tree_construction := some true,
                 continuation_type := some "uniform" }),
   ("kl-olop-1", { cls := "rl_agents.agents.tree_search.olop.OLOPAgent",
                   gamma := some gamma, max_depth := some 10,
                   upper_bound := some ⟨"kullback-leibler", 1⟩,
                   lazy_tree_construction := some true,
                   continuation_type := some "uniform" }),
   ("laplace", { cls := "rl_agents.agents.tree_search.olop.OLOPAgent",
                 gamma := some gamma,
                 upper_bound := some ⟨"laplace", 2⟩,
                 lazy_tree_construction := some true,
                 continuation_type := some "uniform" }),
   ("deterministic", { cls := "rl_agents.agents.tree_search.deterministic.DeterministicPlannerAgent",
                       gamma := some gamma }),
   ("value_iteration", { cls := "rl_agents.agents.dynamic_programming.value_iteration.ValueIterationAgent",
                         gamma := some gamma, iterations := some 30 })]

/-- The trial-specific mutation of evaluate, scripts/planners_evaluation.py lines
122-123: agent_config of budget is set to the trial budget and agent_config of
iterations to the step limit of the environment, writing into the given config
record itself (the code performs no copy). -/
def evaluate_inject (c : AgentConf) (budget iters : ℕ) : AgentConf :=
  { c with budget := some budget, iterations := some iters }

/-- The effect of one in-process evaluate call on the shared config objects:
prepare_experiments builds the trial descriptors with product(seeds, budgets,
agents.items(), ...), so every descriptor of an agent aliases the single registry
dict of that agent; mutating it through evaluate_inject updates the registry
record (and thereby every same-agent descriptor), leaving other agents unchanged.
The heap of shared config objects is modelled as the registry association list. -/
def evaluate_config_effect (reg : List (String × AgentConf)) (agent_name : String)
    (budget iters : ℕ) : List (String × AgentConf) :=
  reg.map fun p => if p.1 = agent_name then (p.1, evaluate_inject p.2 budget iters) else p

/-- C3 counterexample: running one trial for the olop agent with budget 100 and 27
iterations changes the registry record of olop: its budget field goes from absent
to 100, because evaluate mutates the shared dict rather than a copy. -/
theorem C3_counterexample :
    ((evaluate_config_effect agent_configs "olop" 100 27).lookup "olop").map
        AgentConf.budget = some (some 100) ∧
      (agent_configs.lookup "olop").map AgentConf.budget = some none := by
  constructor
  · simp [agent_configs, evaluate_config_effect, evaluate_inject, List.lookup]
  · simp [agent_configs, List.lookup]

/-- C3 (amended): evaluate injects budget and iterations by mutating the config
record of the trial descriptor in place, with no copy; since descriptors share the
registry config objects, the registry record of the executed agent (and every
same-agent descriptor) now carries the injected budget and iterations while all
its other fields are preserved, and the records of all other agents are unchanged. -/
theorem C3_shared_mutation (reg : List (String × AgentConf)) (agent_name : String)
    (b it : ℕ) (d : String × AgentConf) (i : ℕ) (hi : i < reg.length) :
    ((evaluate_config_effect reg agent_name b it).getD i d).1 = (reg.getD i d).1 ∧
      ((reg.getD i d).1 ≠ agent_name →
        (evaluate_config_effect reg agent_name b it).getD i d = reg.getD i d) ∧
      ((reg.getD i d).1 = agent_name →
        ((evaluate_config_effect reg agent_name b it).getD i d).2.budget = some b ∧
          ((evaluate_config_effect reg agent_name b it).getD i d).2.iterations = some it ∧
          ((evaluate_config_effect reg agent_name b it).getD i d).2.cls = (reg.getD i d).2.cls ∧
          ((evaluate_config_effect reg agent_name b it).getD i d).2.gamma = (reg.getD i d).2.gamma ∧
          ((evaluate_config_effect reg agent_name b it).getD i d).2.max_depth = (reg.getD i d).2.max_depth ∧
          ((evaluate_config_effect reg agent_name b it).getD i d).2.upper_bound = (reg.getD i d).2.upper_bound ∧
          ((evaluate_config_effect reg agent_name b it).getD i d).2.lazy_tree_construction = (reg.getD i d).2.lazy_tree_construction ∧
          ((evaluate_config_effect reg agent_name b it).getD i d).2.continuation_type = (reg.getD i d).2.continuation_type) := by
  have hgd : reg.getD i d = reg.get ⟨i, hi⟩ := by
    rw [List.getD_eq_getElem?_getD, List.getElem?_eq_getElem hi]
    rfl
  have hge : (evaluate_config_effect reg agent_name b it).getD i d =
      (fun p : String × AgentConf =>
        if p.1 = agent_name then (p.1, evaluate_inject p.2 b it) else p) (reg.get ⟨i, hi⟩) := by
    rw [evaluate_config_effect, List.getD_eq_getElem?_getD, List.getElem?_map,
      List.getElem?_eq_getElem hi]
    rfl
  rw [hgd, hge]
  simp only [List.get_eq_getElem]
  by_cases h : reg[i].1 = agent_name
  · simp [h, evaluate_inject]
  · simp [h]

theorem C3_witness :
    ((evaluate_config_effect agent_configs "olop" 100 27).getD 1
        ("", { cls := "" })).1 = (agent_configs.getD 1 ("", { cls := "" })).1 ∧
      ((agent_configs.getD 1 ("", { cls := "" })).1 ≠ "olop" →
        (evaluate_config_effect agent_configs "olop" 100 27).getD 1 ("", { cls := "" }) =
          agent_configs.getD 1 ("", { cls := "" })) ∧
      ((agent_configs.getD 1 ("", { cls := "" })).1 = "olop" →
        ((evaluate_config_effect agent_configs "olop" 100 27).getD 1
            ("", { cls := "" })).2.budget = some 100 ∧
          ((evaluate_config_effect agent_configs "olop" 100 27).getD 1
            ("", { cls := "" })).2.iterations = some 27 ∧
          ((evaluate_config_effect agent_configs "olop" 100 27).getD 1
            ("", { cls := "" })).2.cls = (agent_configs.getD 1 ("", { cls := "" })).2.cls ∧
          ((evaluate_config_effect agent_configs "olop" 100 27).getD 1
            ("", { cls := "" })).2.gamma = (agent_configs.getD 1 ("", { cls := "" })).2.gamma ∧
          ((evaluate_config_effect agent_configs "olop" 100 27).getD 1
            ("", { cls := "" })).2.max_depth = (agent_configs.getD 1 ("", { cls := "" })).2.max_depth ∧
          ((evaluate_config_effect agent_configs "olop" 100 27).getD 1
            ("", { cls := "" })).2.upper_bound = (agent_configs.getD 1 ("", { cls := "" })).2.upper_bound ∧
          ((evaluate_config_effect agent_configs "olop" 100 27).getD 1
            ("", { cls := "" })).2.lazy_tree_construction =
              (agent_configs.getD 1 ("", { cls := "" })).2.lazy_tree_construction ∧
          ((evaluate_config_effect agent_configs "olop" 100 27).getD 1
            ("", { cls := "" })).2.continuation_type =
              (agent_configs.getD 1 ("", { cls := "" })).2.continuation_type) :=
  C3_shared_mutation agent_configs "olop" 100 27 ("", { cls := "" }) 1
    (by simp [agent_configs])

/-- The integer conversion applied by prepare_experiments to one logspace value,
scripts/planners_evaluation.py line 155: np.logspace produces 10 raised to a
rational exponent e, and astype(int) truncates it toward zero. For e ≥ 0 this is
the largest n with n ^ e.den ≤ 10 ^ e.num, and for e < 0 the value lies in (0, 1)
and truncates to 0. -/
def pow10floor (e : ℚ) : ℕ :=
  if e < 0 then 0
  else Nat.findGreatest (fun n => n ^ e.den ≤ 10 ^ e.num.toNat) (10 ^ e.num.toNat)

/-- The exponent grid underlying np.logspace(start, stop, num): num evenly spaced
points from start to stop inclusive, exact in rational arithmetic. -/
def linspace (start stop : ℚ) (num : ℕ) : List ℚ :=
  if num = 0 then []
  else if num = 1 then [start]
  else (List.range num).map fun i => start + i * ((stop - start) / (num - 1))

/-- np.unique as used on the integer budgets, scripts/planners_evaluation.py
line 155: the sorted list of the distinct values. -/
def np_unique (l : List ℕ) : List ℕ := l.toFinset.sort (· ≤ ·)

/-- The budget list of prepare_experiments, line 155:
np.unique(np.logspace(*literal_eval(budgets)).astype(int)). -/
def logspace_int_budgets (start stop : ℚ) (num : ℕ) : List ℕ :=
  np_unique ((linspace start stop num).map pow10floor)

/-- The environment config list of prepare_experiments, line 162. -/
def envs_list : List String := ["configs/FiniteMDPEnv/env_garnet.json"]

/-- The seed list of prepare_experiments, lines 158-161, for a seed spec of the
two-element form first_seed,count: (first_seed + np.arange(count)).tolist(). -/
def seeds_of (first cnt : ℕ) : List ℕ := (List.range cnt).map fun i => first + i

/-- prepare_experiments from scripts/planners_evaluation.py lines 154-165 for a
deterministic seed spec: list(product(seeds, budgets, agents.items(), envs, paths)),
with itertools.product iterating the rightmost factor fastest. -/
def prepare_experiments (bstart bstop : ℚ) (bnum first cnt : ℕ) (path : String) :
    List (ℕ × ℕ × (String × AgentConf) × String × String) :=
  (seeds_of first cnt).flatMap fun s =>
    (logspace_int_budgets bstart bstop bnum).flatMap fun n =>
      agent_configs.flatMap fun ag =>
        envs_list.flatMap fun e =>
          [path].map fun p => (s, n, ag, e, p)

lemma length_flatMap_const {α β : Type} (l : List α) (f : α → List β) (k : ℕ)
    (h : ∀ a ∈ l, (f a).length = k) : (l.flatMap f).length = l.length * k := by
  induction l with
  | nil => simp
  | cons a rest ih =>
      simp only [List.flatMap_cons, List.length_append, List.length_cons]
      rw [h a (by simp), ih (fun b hb => h b (by simp [hb]))]
      ring

/-- C7 (confirmed): prepare_experiments is exactly the cartesian product of
seeds, budgets, registry (name, config) pairs, environment configs and the output
path: a trial descriptor occurs iff its components come from the factor lists, the
number of descriptors is the product of the factor sizes, the budgets are the
truncated logspace values deduplicated and sorted strictly ascending, and the
seeds are the consecutive integers first, ..., first + cnt - 1; the output is a
pure function of the inputs, hence deterministic. -/
theorem C7_grid (bstart bstop : ℚ) (bnum first cnt : ℕ) (path : String)
    (s n : ℕ) (ag : String × AgentConf) (e p : String) :
    ((s, n, ag, e, p) ∈ prepare_experiments bstart bstop bnum first cnt path ↔
      s ∈ seeds_of first cnt ∧ n ∈ logspace_int_budgets bstart bstop bnum ∧
        ag ∈ agent_configs ∧ e ∈ envs_list ∧ p = path) ∧
    (prepare_experiments bstart bstop bnum first cnt path).length =
      cnt * ((logspace_int_budgets bstart bstop bnum).length * agent_configs.length) ∧
    List.Sorted (· < ·) (logspace_int_budgets bstart bstop bnum) ∧
    (∀ x, x ∈ logspace_int_budgets bstart bstop bnum ↔
      x ∈ (linspace bstart bstop bnum).map pow10floor) ∧
    (seeds_of first cnt).length = cnt ∧
    (∀ i, i < cnt → (seeds_of first cnt).getD i 0 = first + i) := by
  refine ⟨?_, ?_, ?_, ?_, ?_, ?_⟩
  · simp [prepare_experiments, List.mem_flatMap, Prod.mk.injEq]
    aesop
  · rw [prepare_experiments,
      length_flatMap_const _ _ ((logspace_int_budgets bstart bstop bnum).length * agent_configs.length)]
    · simp [seeds_of]
    · intro s0 _
      rw [length_flatMap_const _ _ agent_configs.length]
      intro n0 _
      rw [length_flatMap_const _ _ 1]
      · simp
      · intro ag0 _
        rw [length_flatMap_const _ _ 1]
        · simp [envs_list]
        · intro e0 _
          simp
  · rw [logspace_int_budgets, np_unique]
    exact Finset.sort_sorted_lt _
  · intro x
    simp [logspace_int_budgets, np_unique, Finset.mem_sort]
  · simp [seeds_of]
  · intro i hi
    rw [seeds_of, List.getD_eq_getElem?_getD, List.getElem?_map, List.getElem?_range hi]
    rfl

end PlannersEvaluation

namespace DqnAbstract

/-- The configuration dict consumed by DQNAgent.__init__ in
rl_agents/agents/dqn/abstract.py. The keys of default_config are always present;
num_states and num_actions are absent (none) until the constructor writes them. -/
structure DQNConfig where
  layers : List ℕ
  memory_capacity : ℕ
  batch_size : ℕ
  gamma : ℚ
  epsilon : List ℚ
  epsilon_tau : ℕ
  target_update : ℕ
  num_states : Option ℕ := none
  num_actions : Option ℕ := none
deriving DecidableEq

/-- DQNAgent.default_config() from rl_agents/agents/dqn/abstract.py lines 21-31. -/
def default_config : DQNConfig :=
  { layers := [100, 100], memory_capacity := 5000, batch_size := 32,
    gamma := 99 / 100, epsilon := [1, 1 / 100], epsilon_tau := 5000,
    target_update := 1 }

/-- The two environment attributes read by the constructor:
env.observation_space.shape[0] and env.action_space.n. -/
structure DQNEnv where
  observation_dim : ℕ
  action_n : ℕ

/-- The config mutation of DQNAgent.__init__, rl_agents/agents/dqn/abstract.py
lines 12-16: self.config is the caller dict itself when one is passed (config or
default_config() aliases it), and the constructor writes num_states and
num_actions into it and replaces its layers value by
[num_states] + layers + [num_actions]. The returned record is the post-state of
the shared dict, since the code performs no copy. -/
def init_config (env : DQNEnv) (config : Option DQNConfig) : DQNConfig :=
  let c := config.getD default_config
  { c with
    num_states := some env.observation_dim,
    num_actions := some env.action_n,
    layers := env.observation_dim :: (c.layers ++ [env.action_n]) }

/-- C10 (confirmed): for every environment and every non-None config, the
constructor writes num_states and num_actions into the caller record and wraps its
layers value once; constructing a second agent from the same (now mutated) record
wraps layers a second time, so the second agent does not see the original
hidden-layer specification. -/
theorem C10_constructor_mutates (env : DQNEnv) (c : DQNConfig) :
    (init_config env (some c)).num_states = some env.observation_dim ∧
      (init_config env (some c)).num_actions = some env.action_n ∧
      (init_config env (some c)).layers =
        env.observation_dim :: (c.layers ++ [env.action_n]) ∧
      (init_config env (some (init_config env (some c)))).layers =
        env.observation_dim ::
          ((env.observation_dim :: (c.layers ++ [env.action_n])) ++ [env.action_n]) ∧
      (init_config env (some (init_config env (some c)))).layers ≠
        env.observation_dim :: (c.layers ++ [env.action_n]) := by
  refine ⟨rfl, rfl, rfl, rfl, ?_⟩
  intro h
  have hlen := congrArg List.length h
  simp [init_config] at hlen

end DqnAbstract
